import Mathlib

/-
Verification of the image speed-test repository (app.py, image_speed_test.py).

Shallow embedding conventions:
- Byte counts and pixel sizes are Nat; wall-clock quantities and the values
  manipulated by the human-readable formatters are Rat.
- The JPEG codec is external to the repository; it is modelled as an abstract
  function from the quality parameter to the encoded byte length.
- The network is external; its possible behaviours are modelled as an outcome
  value fed to the downloader.
-/

namespace SpeedTest

/-! ## ReportFormatter (image_speed_test.py, format_bytes / format_speed)

`format_bytes` loops over the units B, KB, MB, GB: if the current value is
below 1024 it returns it with the current unit, otherwise divides by 1024 and
moves to the next unit; after the loop it returns the value (divided four
times) with the fallback unit TB, without any further check.  `format_speed`
is the same loop with the "/s"-suffixed unit names.  We model the numeric
value and the chosen unit; the 2-decimal-place rendering is presentation. -/

def fbAux (fallback : String) : Rat → List String → Rat × String
  | v, [] => (v, fallback)
  | v, u :: us => if v < 1024 then (v, u) else fbAux fallback (v / 1024) us

def format_bytes (v : Rat) : Rat × String :=
  fbAux "TB" v ["B", "KB", "MB", "GB"]

def format_speed (v : Rat) : Rat × String :=
  fbAux "TB/s" v ["B/s", "KB/s", "MB/s", "GB/s"]

/-! ## StreamingDownloader (image_speed_test.py, test_image_download_speed)

The body performs an HTTP GET and streams the response in chunks inside a
try/except.  `requests.exceptions.RequestException` (connection errors,
timeouts, and the non-2xx statuses surfaced by raise_for_status) and every
other `Exception` raised during streaming are caught and turned into a
failure dictionary; the success path builds a success dictionary.  The two
dictionary shapes share only the url and the success flag, so the result is
a tagged sum.  The network interaction is modelled as an outcome value. -/

inductive NetOutcome where
  /-- The request succeeded: the body arrived as chunks of the given byte
  lengths and the wall clock advanced by `elapsed` seconds. -/
  | ok (chunks : List Nat) (elapsed : Rat)
  /-- A requests.exceptions.RequestException was raised (connection refused,
  timeout, or raise_for_status on a non-2xx response). -/
  | requestError (msg : String)
  /-- Any other Exception raised during streaming. -/
  | otherError (msg : String)
deriving DecidableEq

inductive DownloadResult where
  /-- success dict: url, size_bytes, duration_seconds, speed_bps (plus their
  formatted renderings) and success = True. -/
  | success (url : String) (size_bytes : Nat) (duration_seconds : Rat)
      (speed_bps : Rat)
  /-- failure dict: url, error string, success = False. -/
  | failure (url : String) (error : String)
deriving DecidableEq

def test_image_download_speed (url : String) (outcome : NetOutcome) :
    DownloadResult :=
  match outcome with
  | NetOutcome.ok chunks elapsed =>
      let downloaded := (chunks.filter (fun c => decide (0 < c))).sum
      let speed := if 0 < elapsed then (downloaded : Rat) / elapsed else 0
      DownloadResult.success url downloaded elapsed speed
  | NetOutcome.requestError msg => DownloadResult.failure url msg
  | NetOutcome.otherError msg => DownloadResult.failure url msg

/-! ## SizeApproximatingEncoder (app.py, generate_test_image)

`generate_test_image(width, height, size_kb)` builds a canvas, draws a random
grid pattern and a label, then encodes.  With `size_kb` set it runs:

    quality = 85
    while True:
        encode at quality
        if len(bytes)/1024 <= size_kb * 1.1: break
        quality -= 5
        if quality < 10: break

The codec is abstracted as `encode : quality → byte length` (the canvas is
fixed for the whole loop, so the encoded length depends only on quality). -/

/-- The acceptance test `len(img_bytes)/1024 <= size_kb * 1.1` with the
rational inequality cleared of denominators: len/1024 ≤ kb·11/10 iff
10·len ≤ 11264·kb. -/
def sizeAccepted (len size_kb : Nat) : Bool :=
  10 * len ≤ 11264 * size_kb

/-- Final state of the quality-search loop: the value of the Python `quality`
variable when the loop exits, the byte length of the last encoding produced,
and how many encode calls were made. -/
structure SearchResult where
  quality : Nat
  size : Nat
  attempts : Nat
deriving DecidableEq

def qualityLoop (encode : Nat → Nat) (size_kb : Nat) (q : Nat) : SearchResult :=
  let s := encode q
  if sizeAccepted s size_kb then ⟨q, s, 1⟩
  else if q - 5 < 10 then ⟨q - 5, s, 1⟩
  else
    let r := qualityLoop encode size_kb (q - 5)
    ⟨r.quality, r.size, r.attempts + 1⟩
termination_by q
decreasing_by omega

/-- generate_test_image in target-size mode: the loop starts at quality 85. -/
def generate_test_image_sized (encode : Nat → Nat) (size_kb : Nat) :
    SearchResult :=
  qualityLoop encode size_kb 85

/-- Byte length returned by generate_test_image: a single encode at quality
85 when no target size is given, otherwise the quality-search result. -/
def generate_test_image_len (encode : Nat → Nat) : Option Nat → Nat
  | none => encode 85
  | some kb => (generate_test_image_sized encode kb).size

/-! ### Control flow of generate_test_image as an ordered action trace

generate_test_image performs, unconditionally and in this order: canvas
construction (`Image.new`), drawing of the random grid pattern, drawing of
the label text, and then the encoding step(s).  There is no validation
branch anywhere in its body, so no code path emits a rejection; the
`reject` action exists in the action alphabet only so the claimed
behaviour can be stated. -/

inductive Action where
  /-- Rejecting the request with an InvalidRequest error before any work. -/
  | reject
  /-- Canvas construction, Image.new with the given pixel dimensions. -/
  | constructCanvas (width height : Int)
  /-- The 50x50 grid of random 25x25 colored rectangles. -/
  | drawPattern
  /-- The overlay label text with the dimensions. -/
  | drawLabel (width height : Int)
  /-- One `img.save(..., quality=q)` call. -/
  | encodeJPEG (quality : Nat)
deriving DecidableEq

/-- The encode actions performed by the target-size quality loop, in order. -/
def loopEncodes (encode : Nat → Nat) (size_kb : Nat) (q : Nat) : List Action :=
  if sizeAccepted (encode q) size_kb then [Action.encodeJPEG q]
  else if q - 5 < 10 then [Action.encodeJPEG q]
  else Action.encodeJPEG q :: loopEncodes encode size_kb (q - 5)
termination_by q
decreasing_by omega

/-- The full ordered action trace of generate_test_image(width, height,
size_kb).  Transcribed from the body: canvas first, then pattern, then
label, then encoding; no validation anywhere. -/
def generate_test_image_actions (width height : Int) (size_kb : Option Nat)
    (encode : Nat → Nat) : List Action :=
  Action.constructCanvas width height ::
  Action.drawPattern ::
  Action.drawLabel width height ::
  (match size_kb with
   | none => [Action.encodeJPEG 85]
   | some kb => loopEncodes encode kb 85)

/-- serve_sized_image(size_kb) calls generate_test_image(size_kb=size_kb),
so width and height take their defaults 1920 and 1080. -/
def serve_sized_image_actions (size_kb : Nat) (encode : Nat → Nat) :
    List Action :=
  generate_test_image_actions 1920 1080 (some size_kb) encode

/-! ## TransferRecorder (app.py, timing_data and the two routes)

`timing_data` is a module-level Python list.  Each of serve_image and
serve_sized_image appends one request dict and then runs
`if len(timing_data) > 100: timing_data.pop(0)`. -/

/-- One entry of timing_data.  serve_image stores a `dimensions` string
"WxH"; serve_sized_image stores the numeric `target_size_kb`; `tag` holds
whichever of the two the producing route set. -/
structure TransferObservation where
  timestamp : Rat
  client_ip : String
  user_agent : String
  image_size : Nat
  tag : String ⊕ Nat
  start_time : Rat
deriving DecidableEq

/-- The capped append: timing_data.append of the entry followed by
popping the head when the length exceeds 100. -/
def logAppend {α : Type} (log : List α) (x : α) : List α :=
  if 100 < (log ++ [x]).length then (log ++ [x]).drop 1 else log ++ [x]

/-- What serve_image returns to the transport layer together with the state
of timing_data after the call. -/
structure ServeResult where
  payloadSize : Nat
  log : List TransferObservation
deriving DecidableEq

/-- serve_image(width, height): generate the image in fixed-size mode (one
encode at quality 85), record an observation carrying the payload size and
the "WxH" dimension label, append it to timing_data with the 100-entry cap.
`now`, `ip` and `ua` stand for the wall clock and the request metadata read
from the environment. -/
def serve_image (encode : Nat → Nat) (now : Rat) (ip ua : String)
    (width height : Nat) (log : List TransferObservation) : ServeResult :=
  let size := generate_test_image_len encode none
  let obs : TransferObservation :=
    { timestamp := now, client_ip := ip, user_agent := ua,
      image_size := size,
      tag := Sum.inl (toString width ++ "x" ++ toString height),
      start_time := now }
  ⟨size, logAppend log obs⟩

/-! ## StatsAggregator (app.py, get_stats / clear_stats) -/

inductive StatsResult where
  /-- The empty-log response: the message No requests yet together with
  total_requests 0 — a shape distinct from the aggregate response. -/
  | noData
  /-- The aggregate response: total_requests, total_data_served,
  average_image_size, recent_requests (the last up-to-10 observations). -/
  | stats (total_requests : Nat) (total_data_served : Nat)
      (average_image_size : Rat)
      (recent_requests : List TransferObservation)
deriving DecidableEq

/-- get_stats: `if not timing_data:` return the no-data message, else the
aggregates; `recent_requests = timing_data[-10:]`. -/
def get_stats (log : List TransferObservation) : StatsResult :=
  if log.isEmpty then StatsResult.noData
  else
    let total := log.length
    let totalSize := (log.map TransferObservation.image_size).sum
    StatsResult.stats total totalSize
      (if 0 < total then (totalSize : Rat) / total else 0)
      (log.drop (log.length - 10))

/-- clear_stats: `timing_data = []`. -/
def clear_stats (_log : List TransferObservation) :
    List TransferObservation :=
  []

/-- A concrete observation, used to build concrete log states. -/
def sampleObs : TransferObservation :=
  { timestamp := 0, client_ip := "127.0.0.1", user_agent := "agent",
    image_size := 1, tag := Sum.inl "1x1", start_time := 0 }

/-! ## Helper lemmas -/

/-- The Boolean acceptance test equals the rational inequality of the source,
`len/1024 ≤ size_kb * 1.1`, i.e. `len ≤ size_kb * 1.1 * 1024` bytes. -/
theorem sizeAccepted_iff (len kb : Nat) :
    sizeAccepted len kb = true ↔ (len : Rat) ≤ kb * 1.1 * 1024 := by
  unfold sizeAccepted
  rw [decide_eq_true_iff]
  constructor
  · intro h
    have h2 : ((10 * len : Nat) : Rat) ≤ ((11264 * kb : Nat) : Rat) := by
      exact_mod_cast h
    push_cast at h2
    norm_num
    linarith
  · intro h
    norm_num at h
    have h2 : (10 : Rat) * len ≤ 11264 * kb := by linarith
    exact_mod_cast h2

/-- Any run of the quality loop starting at a quality that is a positive
multiple of 5 ends either accepted, or at the floor with the last encoding
made at quality 10. -/
theorem qualityLoop_spec (encode : Nat → Nat) (kb : Nat) :
    ∀ q, q % 5 = 0 → 10 ≤ q →
      sizeAccepted (qualityLoop encode kb q).size kb = true ∨
      ((qualityLoop encode kb q).quality < 10 ∧
       (qualityLoop encode kb q).size = encode 10) := by
  intro q
  induction q using Nat.strong_induction_on with
  | _ q ih =>
    intro hmod hge
    rw [qualityLoop]
    by_cases hacc : sizeAccepted (encode q) kb = true
    · simp [hacc]
    · by_cases hfloor : q - 5 < 10
      · have hq : q = 10 := by omega
        subst hq
        simp [hacc]
      · simp only [hacc, if_false, hfloor]
        simp only [Bool.false_eq_true, if_false]
        exact ih (q - 5) (by omega) (by omega) (by omega)

/-- The quality loop makes at most (q-10)/5 + 1 encode calls when started
at a quality q ≥ 10 that is a multiple of 5. -/
theorem qualityLoop_attempts (encode : Nat → Nat) (kb : Nat) :
    ∀ q, q % 5 = 0 → 10 ≤ q →
      (qualityLoop encode kb q).attempts ≤ (q - 10) / 5 + 1 := by
  intro q
  induction q using Nat.strong_induction_on with
  | _ q ih =>
    intro hmod hge
    rw [qualityLoop]
    by_cases hacc : sizeAccepted (encode q) kb = true
    · simp [hacc]
    · by_cases hfloor : q - 5 < 10
      · simp [hacc, hfloor]
      · simp only [hacc, hfloor, Bool.false_eq_true, if_false]
        have h := ih (q - 5) (by omega) (by omega) (by omega)
        omega

/-- Every action emitted by the quality loop is an encode. -/
theorem loopEncodes_no_reject (encode : Nat → Nat) (kb : Nat) :
    ∀ q, Action.reject ∉ loopEncodes encode kb q := by
  intro q
  induction q using Nat.strong_induction_on with
  | _ q ih =>
    rw [loopEncodes]
    by_cases hacc : sizeAccepted (encode q) kb = true
    · simp [hacc]
    · by_cases hfloor : q - 5 < 10
      · simp [hacc, hfloor]
      · simp only [hacc, hfloor, Bool.false_eq_true, if_false]
        intro hmem
        rcases List.mem_cons.mp hmem with h | h
        · exact Action.noConfusion h
        · exact ih (q - 5) (by omega) h

/-- Appending one entry through the cap keeps the log at or below 100. -/
theorem logAppend_length_le {α : Type} (log : List α) (x : α)
    (h : log.length ≤ 100) : (logAppend log x).length ≤ 100 := by
  unfold logAppend
  by_cases hlen : 100 < (log ++ [x]).length
  · rw [if_pos hlen]
    simp only [List.length_drop, List.length_append, List.length_singleton]
    omega
  · rw [if_neg hlen]
    simp only [List.length_append, List.length_singleton] at *
    omega

/-- Folding capped appends over any starting log of admissible size keeps
exactly the most recent 100 entries of the combined sequence. -/
theorem foldl_logAppend_drop {α : Type} (xs : List α) :
    ∀ log : List α, log.length ≤ 100 →
      xs.foldl logAppend log = (log ++ xs).drop ((log ++ xs).length - 100) := by
  induction xs with
  | nil =>
    intro log h
    simp only [List.foldl_nil, List.append_nil]
    rw [Nat.sub_eq_zero_of_le h, List.drop_zero]
  | cons x rest ih =>
    intro log h
    rw [List.foldl_cons]
    by_cases hcap : log.length = 100
    · have hgt : 100 < (log ++ [x]).length := by
        simp [List.length_append]
        omega
      have hx : logAppend log x = (log ++ [x]).drop 1 := by
        unfold logAppend
        rw [if_pos hgt]
      rw [hx]
      have hlen : ((log ++ [x]).drop 1).length ≤ 100 := by
        simp [List.length_append, hcap]
      rw [ih _ hlen]
      have hone : (1 : Nat) ≤ (log ++ [x]).length := by
        simp [List.length_append]
      have hsplit : ((log ++ [x]).drop 1) ++ rest =
          ((log ++ [x]) ++ rest).drop 1 :=
        (List.drop_append_of_le_length hone).symm
      rw [hsplit, List.drop_drop]
      have hl : (log ++ [x]) ++ rest = log ++ x :: rest := by simp
      rw [hl]
      congr 1
      simp only [List.length_drop, List.length_append, List.length_cons,
        List.length_singleton]
      omega
    · have hlt : log.length < 100 := lt_of_le_of_ne h hcap
      have hn : ¬ 100 < (log ++ [x]).length := by
        simp [List.length_append]
        omega
      have hx : logAppend log x = log ++ [x] := by
        unfold logAppend
        rw [if_neg hn]
      rw [hx, ih _ (by simp [List.length_append]; omega)]
      have hl : (log ++ [x]) ++ rest = log ++ x :: rest := by simp
      rw [hl]

/-! ## Claims -/

/-- C1: for every strictly positive targetSizeKb, the payload produced by
the target-size mode has byte length at most targetSizeKb · 1.1 · 1024, or
else the quality search reached the floor (the quality variable ended below
10) and the returned payload is the last encoding produced, which was made
at quality 10. -/
theorem c1_target_size_bound (encode : Nat → Nat) (size_kb : Nat)
    (hpos : 0 < size_kb) :
    ((generate_test_image_sized encode size_kb).size : Rat) ≤
        size_kb * 1.1 * 1024 ∨
    ((generate_test_image_sized encode size_kb).quality < 10 ∧
     (generate_test_image_sized encode size_kb).size = encode 10) := by
  rcases qualityLoop_spec encode size_kb 85 (by norm_num) (by norm_num)
    with h | h
  · exact Or.inl ((sizeAccepted_iff _ _).mp h)
  · exact Or.inr h

/-- Witness for C1: the encoder that always produces 0 bytes meets the
size bound for target 1 KB. -/
theorem c1_witness :
    0 < 1 ∧
    (((generate_test_image_sized (fun _ => 0) 1).size : Rat) ≤
        1 * 1.1 * 1024 ∨
     ((generate_test_image_sized (fun _ => 0) 1).quality < 10 ∧
      (generate_test_image_sized (fun _ => 0) 1).size = (fun _ => 0) 10)) :=
  ⟨by norm_num, c1_target_size_bound (fun _ => 0) 1 (by norm_num)⟩

/-- C2: starting from the empty log, any sequence of sequential capped
appends leaves exactly the most recent min(n, 100) entries in insertion
order; in particular any 150 sequential appends leave exactly the last 100
entries. -/
theorem c2_log_capacity :
    (∀ xs : List TransferObservation,
      (xs.foldl logAppend []).length = min xs.length 100 ∧
      xs.foldl logAppend [] = xs.drop (xs.length - 100)) ∧
    (∀ ys : List TransferObservation, ys.length = 150 →
      (ys.foldl logAppend []).length = 100 ∧
      ys.foldl logAppend [] = ys.drop 50) := by
  have key : ∀ xs : List TransferObservation,
      xs.foldl logAppend [] = xs.drop (xs.length - 100) := by
    intro xs
    have h := foldl_logAppend_drop xs ([] : List TransferObservation)
      (by simp)
    simpa using h
  have len : ∀ xs : List TransferObservation,
      (xs.foldl logAppend []).length = min xs.length 100 := by
    intro xs
    rw [key xs, List.length_drop]
    omega
  refine ⟨fun xs => ⟨len xs, key xs⟩, fun ys hy => ⟨?_, ?_⟩⟩
  · rw [len ys, hy]
    decide
  · rw [key ys, hy]

/-- Witness for C2: 150 appends of a concrete observation leave 100
entries. -/
theorem c2_witness :
    ((List.replicate 150 sampleObs).foldl logAppend []).length = 100 ∧
    (List.replicate 150 sampleObs).foldl logAppend [] =
      (List.replicate 150 sampleObs).drop 50 :=
  c2_log_capacity.2 (List.replicate 150 sampleObs) (by simp)

/-- C3 counterexample: at the non-positive request width = height = 0,
generate_test_image does not reject; its first action is the canvas
construction, and no rejection occurs anywhere in its trace.  The claim
that such a request is rejected before canvas construction is false. -/
theorem c3_counterexample :
    Action.reject ∉ generate_test_image_actions 0 0 none (fun _ => 0) ∧
    (generate_test_image_actions 0 0 none (fun _ => 0)).head? =
      some (Action.constructCanvas 0 0) := by
  constructor
  · decide
  · rfl

/-- C3 amended: generate_test_image performs no input validation at all —
for every width, height and targetSizeKb (non-positive included) its first
action is constructing the canvas at exactly the requested dimensions, and
no InvalidRequest rejection is ever surfaced. -/
theorem c3_no_validation (width height : Int) (size_kb : Option Nat)
    (encode : Nat → Nat) :
    (generate_test_image_actions width height size_kb encode).head? =
        some (Action.constructCanvas width height) ∧
    Action.reject ∉ generate_test_image_actions width height size_kb encode := by
  refine ⟨rfl, ?_⟩
  intro hmem
  unfold generate_test_image_actions at hmem
  rcases List.mem_cons.mp hmem with h | hmem
  · exact Action.noConfusion h
  rcases List.mem_cons.mp hmem with h | hmem
  · exact Action.noConfusion h
  rcases List.mem_cons.mp hmem with h | hmem
  · exact Action.noConfusion h
  cases size_kb with
  | none =>
    rcases List.mem_cons.mp hmem with h | h
    · exact Action.noConfusion h
    · exact List.not_mem_nil _ h
  | some kb => exact loopEncodes_no_reject encode kb 85 hmem

/-- C4: the quality search always terminates with at most 16 encode
attempts, ending either accepted (target met) or with the quality below
the floor of 10. -/
theorem c4_search_terminates (encode : Nat → Nat) (size_kb : Nat) :
    (generate_test_image_sized encode size_kb).attempts ≤ 16 ∧
    (sizeAccepted (generate_test_image_sized encode size_kb).size size_kb
        = true ∨
     (generate_test_image_sized encode size_kb).quality < 10) := by
  constructor
  · have h := qualityLoop_attempts encode size_kb 85 (by norm_num)
      (by norm_num)
    simpa [generate_test_image_sized] using h
  · rcases qualityLoop_spec encode size_kb 85 (by norm_num) (by norm_num)
      with h | h
    · exact Or.inl h
    · exact Or.inr h.1

/-- C5 counterexample: when the log already holds 100 entries, serve_image
appends and then evicts, so the entry count stays 100 — it is not one
greater than before the call.  The claim that the count always grows by
exactly 1 is false at a full log. -/
theorem c5_counterexample :
    (serve_image (fun _ => 1000) 0 "127.0.0.1" "agent" 10 10
        (List.replicate 100 sampleObs)).log.length =
      (List.replicate 100 sampleObs).length ∧
    ¬ (serve_image (fun _ => 1000) 0 "127.0.0.1" "agent" 10 10
        (List.replicate 100 sampleObs)).log.length =
      (List.replicate 100 sampleObs).length + 1 := by
  have hlen : (serve_image (fun _ => 1000) 0 "127.0.0.1" "agent" 10 10
      (List.replicate 100 sampleObs)).log.length = 100 := by
    simp [serve_image, logAppend, generate_test_image_len]
  constructor
  · rw [hlen]; simp
  · rw [hlen]; simp

/-- C5 amended: for every valid request (positive width and height), when
the codec produces a nonempty encoding, the payload has positive byte
length, and the log count after the call is min(count + 1, 100): exactly
one greater while the log is below capacity, unchanged at 100 once full. -/
theorem c5_serve_logs_once (encode : Nat → Nat) (now : Rat) (ip ua : String)
    (width height : Nat) (log : List TransferObservation)
    (hw : 0 < width) (hh : 0 < height) (henc : 0 < encode 85)
    (hlog : log.length ≤ 100) :
    0 < (serve_image encode now ip ua width height log).payloadSize ∧
    (serve_image encode now ip ua width height log).log.length =
      min (log.length + 1) 100 := by
  have hlen : ∀ obs : TransferObservation,
      (logAppend log obs).length = min (log.length + 1) 100 := by
    intro obs
    unfold logAppend
    by_cases hgt : 100 < (log ++ [obs]).length
    · rw [if_pos hgt]
      simp only [List.length_drop, List.length_append,
        List.length_singleton] at hgt ⊢
      omega
    · rw [if_neg hgt]
      simp only [List.length_append, List.length_singleton] at hgt ⊢
      omega
  constructor
  · simpa [serve_image, generate_test_image_len] using henc
  · exact hlen _

/-- Witness for C5: a fresh empty log and a codec producing one byte. -/
theorem c5_witness :
    0 < 1 ∧ 0 < 1 ∧ 0 < (fun _ : Nat => 1) 85 ∧
      ([] : List TransferObservation).length ≤ 100 ∧
    (0 < (serve_image (fun _ => 1) 0 "127.0.0.1" "agent" 1 1 []).payloadSize ∧
     (serve_image (fun _ => 1) 0 "127.0.0.1" "agent" 1 1 []).log.length =
       min (([] : List TransferObservation).length + 1) 100) :=
  ⟨by decide, by decide, by decide, by decide,
   c5_serve_logs_once (fun _ => 1) 0 "127.0.0.1" "agent" 1 1 []
     (by decide) (by decide) (by decide) (by decide)⟩

/-- C6: the stats query on the empty log returns the distinct no-data
signal, never a zero-filled aggregate; clearing then reading yields the
empty log, so clear followed by the stats query produces the no-data
signal, which is distinct from every aggregate result. -/
theorem c6_empty_stats (log : List TransferObservation) :
    get_stats ([] : List TransferObservation) = StatsResult.noData ∧
    clear_stats log = [] ∧
    get_stats (clear_stats log) = StatsResult.noData ∧
    ∀ t s a r, StatsResult.noData ≠ StatsResult.stats t s a r := by
  refine ⟨rfl, rfl, rfl, ?_⟩
  intro t s a r h
  exact StatsResult.noConfusion h

/-- C7: for every url and network outcome the downloader returns a value —
every failure (request exception, covering connection errors, timeouts and
non-2xx statuses, or any other exception during streaming) becomes a
tagged failure result carrying the url and an error description, the
success path yields the success variant carrying the url, and the two
variants are disjoint, so success fields and the error field are never
both populated. -/
theorem c7_download_tagged (url : String) (outcome : NetOutcome) :
    ((∃ s d v, test_image_download_speed url outcome =
        DownloadResult.success url s d v) ∨
     (∃ e, test_image_download_speed url outcome =
        DownloadResult.failure url e)) ∧
    (∀ u1 s d v u2 e,
      DownloadResult.success u1 s d v ≠ DownloadResult.failure u2 e) := by
  constructor
  · cases outcome with
    | ok chunks elapsed => exact Or.inl ⟨_, _, _, rfl⟩
    | requestError m => exact Or.inr ⟨m, rfl⟩
    | otherError m => exact Or.inr ⟨m, rfl⟩
  · intro u1 s d v u2 e h
    exact DownloadResult.noConfusion h

/-- Unfolding equation of the formatter loop on a cons cell. -/
theorem fbAux_cons (fb u : String) (us : List String) (v : Rat) :
    fbAux fb v (u :: us) =
      if v < 1024 then (v, u) else fbAux fb (v / 1024) us := rfl

/-- Unfolding equation of the formatter loop on the exhausted unit list. -/
theorem fbAux_nil (fb : String) (v : Rat) : fbAux fb v [] = (v, fb) := rfl

/-- Closed form of the four-unit formatter loop as nested conditionals. -/
theorem fbAux_char (fb u1 u2 u3 u4 : String) (b : Rat) :
    fbAux fb b [u1, u2, u3, u4] =
      if b < 1024 then (b, u1)
      else if b / 1024 < 1024 then (b / 1024, u2)
      else if b / 1024 / 1024 < 1024 then (b / 1024 / 1024, u3)
      else if b / 1024 / 1024 / 1024 < 1024 then (b / 1024 / 1024 / 1024, u4)
      else (b / 1024 / 1024 / 1024 / 1024, fb) := by
  by_cases c1 : b < 1024
  · rw [fbAux_cons, if_pos c1, if_pos c1]
  · rw [fbAux_cons, if_neg c1, if_neg c1, fbAux_cons]
    by_cases c2 : b / 1024 < 1024
    · rw [if_pos c2, if_pos c2]
    · rw [if_neg c2, if_neg c2, fbAux_cons]
      by_cases c3 : b / 1024 / 1024 < 1024
      · rw [if_pos c3, if_pos c3]
      · rw [if_neg c3, if_neg c3, fbAux_cons]
        by_cases c4 : b / 1024 / 1024 / 1024 < 1024
        · rw [if_pos c4, if_pos c4]
        · rw [if_neg c4, if_neg c4, fbAux_nil]

/-- C8 counterexample: at 1024^5 bytes the formatter falls through to the
TB fallback with no bound check and returns the numeric value 1024, which
is not below 1024.  The claim that the numeric value is below 1024 for
every input is false. -/
theorem c8_counterexample :
    format_bytes ((1024 : Rat)^5) = (1024, "TB") ∧
    ¬ (format_bytes ((1024 : Rat)^5)).1 < 1024 := by
  have h : format_bytes ((1024 : Rat)^5) = (1024, "TB") := by
    have e : format_bytes ((1024 : Rat)^5) =
        fbAux "TB" ((1024 : Rat)^5) ["B", "KB", "MB", "GB"] := rfl
    rw [e, fbAux_char]
    norm_num
  exact ⟨h, by rw [h]; norm_num⟩

/-- C8 amended: the byte formatter divides by 1024 once per unit step and
the rate formatter makes the same choice with a "/s" suffix; for every
non-negative input below 1024^5 the numeric value in the result is below
1024, while from 1024^5 on the unchecked TB fallback is returned (value =
input / 1024^4, which is then at least 1024). -/
theorem c8_format_scaling (b : Rat) (hb : 0 ≤ b) :
    (b < 1024 →
      format_bytes b = (b, "B") ∧ format_speed b = (b, "B/s")) ∧
    (1024 ≤ b → b < 1024^2 →
      format_bytes b = (b / 1024, "KB") ∧
      format_speed b = (b / 1024, "KB/s")) ∧
    (1024^2 ≤ b → b < 1024^3 →
      format_bytes b = (b / 1024^2, "MB") ∧
      format_speed b = (b / 1024^2, "MB/s")) ∧
    (1024^3 ≤ b → b < 1024^4 →
      format_bytes b = (b / 1024^3, "GB") ∧
      format_speed b = (b / 1024^3, "GB/s")) ∧
    (1024^4 ≤ b →
      format_bytes b = (b / 1024^4, "TB") ∧
      format_speed b = (b / 1024^4, "TB/s")) ∧
    (b < 1024^5 →
      (format_bytes b).1 < 1024 ∧ (format_speed b).1 < 1024) := by
  have efb : format_bytes b = fbAux "TB" b ["B", "KB", "MB", "GB"] := rfl
  have efs : format_speed b =
      fbAux "TB/s" b ["B/s", "KB/s", "MB/s", "GB/s"] := rfl
  have h1 : b / 1024 < 1024 ↔ b < 1024^2 := by
    rw [div_lt_iff₀ (by norm_num : (0:Rat) < 1024)]
    norm_num
  have h2 : b / 1024 / 1024 < 1024 ↔ b < 1024^3 := by
    rw [div_div, div_lt_iff₀ (by norm_num : (0:Rat) < 1024 * 1024)]
    norm_num
  have h3 : b / 1024 / 1024 / 1024 < 1024 ↔ b < 1024^4 := by
    rw [div_div, div_div,
      div_lt_iff₀ (by norm_num : (0:Rat) < 1024 * (1024 * 1024))]
    norm_num
  have h4 : b / 1024 / 1024 / 1024 / 1024 < 1024 ↔ b < 1024^5 := by
    rw [div_div, div_div, div_div,
      div_lt_iff₀ (by norm_num : (0:Rat) < 1024 * (1024 * (1024 * 1024)))]
    norm_num
  have e2 : b / 1024 / 1024 = b / 1024^2 := by rw [div_div]; norm_num
  have e3 : b / 1024 / 1024 / 1024 = b / 1024^3 := by
    rw [div_div, div_div]; norm_num
  have e4 : b / 1024 / 1024 / 1024 / 1024 = b / 1024^4 := by
    rw [div_div, div_div, div_div]; norm_num
  refine ⟨?_, ?_, ?_, ?_, ?_, ?_⟩
  · intro hlt
    constructor
    · rw [efb, fbAux_char, if_pos hlt]
    · rw [efs, fbAux_char, if_pos hlt]
  · intro hge hlt
    have hn1 : ¬ b < 1024 := not_lt.mpr hge
    have hd : b / 1024 < 1024 := h1.mpr hlt
    constructor
    · rw [efb, fbAux_char, if_neg hn1, if_pos hd]
    · rw [efs, fbAux_char, if_neg hn1, if_pos hd]
  · intro hge hlt
    have hn1 : ¬ b < 1024 := by push_neg; nlinarith
    have hn2 : ¬ b / 1024 < 1024 := by rw [h1]; push_neg; exact hge
    have hd : b / 1024 / 1024 < 1024 := h2.mpr hlt
    constructor
    · rw [efb, fbAux_char, if_neg hn1, if_neg hn2, if_pos hd, e2]
    · rw [efs, fbAux_char, if_neg hn1, if_neg hn2, if_pos hd, e2]
  · intro hge hlt
    have hn1 : ¬ b < 1024 := by push_neg; nlinarith
    have hn2 : ¬ b / 1024 < 1024 := by rw [h1]; push_neg; nlinarith
    have hn3 : ¬ b / 1024 / 1024 < 1024 := by rw [h2]; push_neg; exact hge
    have hd : b / 1024 / 1024 / 1024 < 1024 := h3.mpr hlt
    constructor
    · rw [efb, fbAux_char, if_neg hn1, if_neg hn2, if_neg hn3, if_pos hd, e3]
    · rw [efs, fbAux_char, if_neg hn1, if_neg hn2, if_neg hn3, if_pos hd, e3]
  · intro hge
    have hn1 : ¬ b < 1024 := by push_neg; nlinarith
    have hn2 : ¬ b / 1024 < 1024 := by rw [h1]; push_neg; nlinarith
    have hn3 : ¬ b / 1024 / 1024 < 1024 := by rw [h2]; push_neg; nlinarith
    have hn4 : ¬ b / 1024 / 1024 / 1024 < 1024 := by
      rw [h3]; push_neg; exact hge
    constructor
    · rw [efb, fbAux_char, if_neg hn1, if_neg hn2, if_neg hn3, if_neg hn4, e4]
    · rw [efs, fbAux_char, if_neg hn1, if_neg hn2, if_neg hn3, if_neg hn4, e4]
  · intro hlt
    by_cases c1 : b < 1024
    · constructor
      · rw [efb, fbAux_char, if_pos c1]; exact c1
      · rw [efs, fbAux_char, if_pos c1]; exact c1
    · by_cases c2 : b / 1024 < 1024
      · constructor
        · rw [efb, fbAux_char, if_neg c1, if_pos c2]; exact c2
        · rw [efs, fbAux_char, if_neg c1, if_pos c2]; exact c2
      · by_cases c3 : b / 1024 / 1024 < 1024
        · constructor
          · rw [efb, fbAux_char, if_neg c1, if_neg c2, if_pos c3]; exact c3
          · rw [efs, fbAux_char, if_neg c1, if_neg c2, if_pos c3]; exact c3
        · by_cases c4 : b / 1024 / 1024 / 1024 < 1024
          · constructor
            · rw [efb, fbAux_char, if_neg c1, if_neg c2, if_neg c3,
                if_pos c4]
              exact c4
            · rw [efs, fbAux_char, if_neg c1, if_neg c2, if_neg c3,
                if_pos c4]
              exact c4
          · have hlast : b / 1024 / 1024 / 1024 / 1024 < 1024 := h4.mpr hlt
            constructor
            · rw [efb, fbAux_char, if_neg c1, if_neg c2, if_neg c3,
                if_neg c4]
              exact hlast
            · rw [efs, fbAux_char, if_neg c1, if_neg c2, if_neg c3,
                if_neg c4]
              exact hlast

/-- Witness for C8: 2048 bytes formats as 2 KB, below 1024. -/
theorem c8_witness :
    (0 : Rat) ≤ 2048 ∧ (1024 : Rat) ≤ 2048 ∧ (2048 : Rat) < 1024^2 ∧
    (format_bytes 2048 = ((2048 : Rat) / 1024, "KB") ∧
     format_speed 2048 = ((2048 : Rat) / 1024, "KB/s")) :=
  ⟨by norm_num, by norm_num, by norm_num,
   (c8_format_scaling 2048 (by norm_num)).2.1 (by norm_num) (by norm_num)⟩

/-- C10: in target-size mode the canvas is always constructed at the fixed
dimensions 1920x1080, whatever the requested target size — the caller
cannot influence them. -/
theorem c10_fixed_canvas (size_kb : Nat) (encode : Nat → Nat) :
    (serve_sized_image_actions size_kb encode).head? =
      some (Action.constructCanvas 1920 1080) := rfl

end SpeedTest
